import Mathlib

/-!
Verification of the schedulermark.com benchmark pipeline
(`benchmarkConfig.ts`, `benchmarkUtils.ts`, `run-benchmark.ts`).

The TypeScript sources are shallowly embedded below.  Strings are Lean
strings (lists of characters); JavaScript string operations (`trim`,
`toUpperCase`, `toLowerCase`, `includes`, `split(/\r?\n/)`, `replace`)
are modelled character-wise.  The network is modelled as a function
from (model, prompt, maxTokens) to an HTTP response; the file system as
an association list from paths/slugs to contents.  Fallible operations
return `Except`.
-/

namespace SchedulerMark

/-! ## JavaScript string primitives -/

/-- The ECMAScript whitespace characters removed by `String.prototype.trim`. -/
def isJsWhitespace (c : Char) : Bool :=
  let n := c.toNat
  (decide (9 ≤ n) && decide (n ≤ 13)) || decide (n = 32) || decide (n = 160) ||
  decide (n = 5760) || (decide (8192 ≤ n) && decide (n ≤ 8202)) ||
  decide (n = 8232) || decide (n = 8233) || decide (n = 8239) ||
  decide (n = 8287) || decide (n = 12288) || decide (n = 65279)

/-- Remove leading and trailing JS whitespace from a character list. -/
def trimList (l : List Char) : List Char :=
  ((l.dropWhile isJsWhitespace).reverse.dropWhile isJsWhitespace).reverse

/-- JavaScript `s.trim()`. -/
def jsTrim (s : String) : String :=
  String.mk (trimList s.data)

/-- JavaScript `s.toUpperCase()` (ASCII, as used on the verdict line). -/
def jsToUpper (s : String) : String :=
  String.mk (s.data.map Char.toUpper)

/-- JavaScript `s.toLowerCase()` (ASCII, as used on solution HTML). -/
def jsToLower (s : String) : String :=
  String.mk (s.data.map Char.toLower)

/-- Does the pattern occur at the head of the list? -/
def matchesAt : List Char → List Char → Bool
  | [], _ => true
  | _ :: _, [] => false
  | p :: ps, c :: cs => decide (p = c) && matchesAt ps cs

/-- Does the pattern occur anywhere in the list? -/
def containsList (pat : List Char) : List Char → Bool
  | [] => matchesAt pat []
  | c :: rest => matchesAt pat (c :: rest) || containsList pat rest

/-- JavaScript `s.includes(pat)`. -/
def strIncludes (s pat : String) : Bool :=
  containsList pat.data s.data

/-- Split a character list at every `\n` or `\r\n`, as `split(/\r?\n/)` does
(a lone `\r` does not split). -/
def splitNL : List Char → List (List Char)
  | [] => [[]]
  | '\r' :: '\n' :: rest => [] :: splitNL rest
  | '\n' :: rest =>
      match splitNL rest with
      | ls => [] :: ls
  | c :: rest =>
      match splitNL rest with
      | [] => [[c]]
      | l :: ls => (c :: l) :: ls

/-- JavaScript `raw.split(/\r?\n/)`. -/
def jsSplitLines (s : String) : List String :=
  (splitNL s.data).map (fun l => String.mk l)

/-- Replace the first occurrence of `pat` by `repl`, as JS `String.replace`
with a string pattern does. -/
def replaceFirstList (pat repl : List Char) : List Char → List Char
  | [] => if pat = [] then repl else []
  | c :: rest =>
      if matchesAt pat (c :: rest) then repl ++ (c :: rest).drop pat.length
      else c :: replaceFirstList pat repl rest

/-- JavaScript `s.replace(pat, repl)` with a plain-string pattern. -/
def jsReplaceFirst (s pat repl : String) : String :=
  String.mk (replaceFirstList pat.data repl.data s.data)

/-! ## benchmarkConfig.ts -/

/-- The character replacement of `slugify`: `/` and `:` become `_`. -/
def slugChar (c : Char) : Char :=
  if c = '/' ∨ c = ':' then '_' else c

/-- `slugify` from `benchmarkConfig.ts`: `model.replace(/[/:]/g, "_")`. -/
def slugify (model : String) : String :=
  String.mk (model.data.map slugChar)

/-- `buildJudgePrompt` from `benchmarkConfig.ts`: substitute the solution
HTML for the placeholder in the judge prompt template.  The template text
itself is configuration data and is passed in as a parameter. -/
def buildJudgePrompt (template solutionHtml : String) : String :=
  jsReplaceFirst template "\x7b\x7bSOLUTION_HTML_HERE\x7d\x7d" solutionHtml

/-! ## benchmarkUtils.ts: the completion client -/

/-- The shape of `json.choices?.[0]?.message?.content` in an OpenRouter
response: a plain string, an array of fragments each with an optional
`text` field, or any other JSON shape. -/
inductive ContentShape where
  | str (s : String)
  | fragments (parts : List (Option String))
  | other
deriving Repr, DecidableEq

/-- The observable part of one `fetch` response: HTTP success flag, status,
status text, raw error body, and the first choice's message content
(`none` when `choices?.[0]?.message?.content` is absent). -/
structure HttpResponse where
  ok : Bool
  status : Nat
  statusText : String
  bodyText : String
  content : Option ContentShape
deriving Repr, DecidableEq

/-- The two failure modes of `callOpenRouter`: a non-2xx response
(carrying status, status text and raw error body), or an unrecognised
content shape. -/
inductive CallError where
  | requestFailure (status : Nat) (statusText : String) (body : String)
  | shapeMismatch
deriving Repr, DecidableEq

/-- The message of the `Error` thrown by `callOpenRouter`. -/
def errMessage (model : String) : CallError → String
  | .requestFailure status statusText body =>
      "OpenRouter error for " ++ model ++ ": " ++ toString status ++ " " ++
        statusText ++ "\n" ++ body
  | .shapeMismatch => "Unexpected response shape for " ++ model

/-- JavaScript `String(err)` for a thrown `Error`. -/
def errString (model : String) (e : CallError) : String :=
  "Error: " ++ errMessage model e

/-- `callOpenRouter` from `benchmarkUtils.ts`, applied to the response the
network returned: a non-ok response throws with status/statusText/body; a
string content is returned as is; an array content is mapped over
`part.text ?? ""` and joined with `"\n"`; anything else throws a shape
error. -/
def callOpenRouter (res : HttpResponse) : Except CallError String :=
  if !res.ok then
    .error (.requestFailure res.status res.statusText res.bodyText)
  else
    match res.content with
    | some (.str s) => .ok s
    | some (.fragments parts) =>
        .ok (String.intercalate "\n" (parts.map (fun p => p.getD "")))
    | some .other => .error .shapeMismatch
    | none => .error .shapeMismatch

/-- One call to `callOpenRouter` against a stream of pending responses:
it consumes exactly the first response, never a second one (no retry). -/
def callOpenRouterOn (stream : List HttpResponse) :
    Option (Except CallError String × List HttpResponse) :=
  match stream with
  | [] => none
  | r :: rest => some (callOpenRouter r, rest)

/-- A deterministic network environment: (model, prompt, maxTokens) to
HTTP response.  `callModel` performs one request and processes it with
`callOpenRouter`. -/
def callModel (fetch : String → String → Nat → HttpResponse)
    (model prompt : String) (maxTokens : Nat) : Except CallError String :=
  callOpenRouter (fetch model prompt maxTokens)

/-! ## benchmarkUtils.ts: the verdict parser -/

/-- `parseVerdict` from `benchmarkUtils.ts`.  Returns (verdict, explanation).
Lines are split at `\r?\n` and trimmed; the first non-empty line decides
the verdict (`"YES"` on an exact uppercase match, otherwise `"NO"`); no
non-empty line gives `("ERROR", "Empty response")`; the explanation is the
remaining lines joined with `"\n"` and trimmed. -/
def parseVerdict (raw : String) : String × String :=
  let lines := (jsSplitLines raw).map jsTrim
  match lines.findIdx? (fun l => decide (0 < l.length)) with
  | none => ("ERROR", "Empty response")
  | some idx =>
      let first := jsToUpper (lines.getD idx "")
      let verdict :=
        if first = "YES" then "YES" else if first = "NO" then "NO" else "NO"
      let explanation :=
        jsTrim (String.intercalate "\n" (lines.drop (idx + 1)))
      (verdict, explanation)

/-- Case-insensitive string equality, as the specification phrases the
verdict comparison. -/
def caseInsensitiveEq (a b : String) : Bool :=
  decide (jsToUpper a = jsToUpper b)

/-- The verdict parser exactly as the specification describes it: split
into lines, trim each, find the first non-empty line; none gives
`("ERROR", "Empty response")`; otherwise the verdict is affirmative
(`"YES"`) iff the first non-empty line case-insensitively equals the
token `"YES"`, and negative (`"NO"`) for any other first line; the
explanation is the trimmed lines after the first non-empty one rejoined
with newlines and trimmed. -/
def parseVerdictSpec (raw : String) : String × String :=
  let lines := (jsSplitLines raw).map jsTrim
  match lines.findIdx? (fun l => decide (0 < l.length)) with
  | none => ("ERROR", "Empty response")
  | some idx =>
      ((if caseInsensitiveEq (lines.getD idx "") "YES" then "YES" else "NO"),
       jsTrim (String.intercalate "\n" (lines.drop (idx + 1))))

/-! ## run-benchmark.ts: data model -/

/-- `SolutionRecord` from `run-benchmark.ts`. -/
structure SolutionRecord where
  model : String
  slug : String
  html : String
deriving Repr, DecidableEq

/-- `Critique` from `run-benchmark.ts`. -/
structure Critique where
  solverModel : String
  solverSlug : String
  judgeModel : String
  verdict : String
  explanation : String
deriving Repr, DecidableEq

/-- The pair key `` `${solverModel}|${judgeModel}` `` used for critique
deduplication. -/
def pairKey (solverModel judgeModel : String) : String :=
  solverModel ++ "|" ++ judgeModel

/-- The pair key of a critique record. -/
def ckey (c : Critique) : String :=
  pairKey c.solverModel c.judgeModel

/-! ## run-benchmark.ts: loading data/critiques.json (resume state) -/

/-- JSON values as produced by `JSON.parse`. -/
inductive Jv where
  | null
  | bool (b : Bool)
  | num (n : Int)
  | str (s : String)
  | arr (elems : List Jv)
  | obj (fields : List (String × Jv))
deriving Repr

/-- JavaScript property access `v.key` on a parsed JSON value
(`none` models `undefined`). -/
def getField : Jv → String → Option Jv
  | .obj fields, key => (fields.find? (fun f => decide (f.1 = key))).map Prod.snd
  | _, _ => none

/-- JavaScript truthiness of a parsed JSON value. -/
def jsTruthy : Jv → Bool
  | .null => false
  | .bool b => b
  | .num n => decide (n ≠ 0)
  | .str s => decide (s ≠ "")
  | .arr _ => true
  | .obj _ => true

/-- JavaScript truthiness of a possibly-`undefined` value. -/
def jsTruthyOpt : Option Jv → Bool
  | none => false
  | some v => jsTruthy v

mutual

/-- JavaScript string conversion of a parsed JSON value, as template
literals perform it. -/
def jvToString : Jv → String
  | .null => "null"
  | .bool b => if b then "true" else "false"
  | .num n => toString n
  | .str s => s
  | .arr l => jvArrToString l
  | .obj _ => "[object Object]"

/-- JavaScript `Array.prototype.toString`: elements joined with `","`,
`null` elements contributing the empty string. -/
def jvArrToString : List Jv → String
  | [] => ""
  | [.null] => ""
  | [v] => jvToString v
  | .null :: rest => "," ++ jvArrToString rest
  | v :: rest => jvToString v ++ "," ++ jvArrToString rest

end

/-- The result of the startup load of `data/critiques.json`
(`run-benchmark.ts` lines 300-328): the raw in-memory critique array, the
`donePairs` resume index, and whether a parse warning was logged. -/
structure LoadResult where
  critiques : List Jv
  donePairs : List String
  warned : Bool
deriving Repr

/-- The `donePairs` key contributed by one loaded array element: present
exactly when `c && c.solverModel && c.judgeModel` is truthy, and then
equal to `` `${c.solverModel}|${c.judgeModel}` ``. -/
def critiquePairKeyOf (c : Jv) : Option String :=
  if jsTruthy c && jsTruthyOpt (getField c "solverModel") &&
      jsTruthyOpt (getField c "judgeModel") then
    some (jvToString ((getField c "solverModel").getD .null) ++ "|" ++
          jvToString ((getField c "judgeModel").getD .null))
  else none

/-- Startup load of `data/critiques.json`: `none` models a missing file;
`some (.error msg)` a file whose content made `JSON.parse` throw;
`some (.ok v)` a file parsing to the JSON value `v`.  A parse exception
logs a warning and starts fresh; a non-array value leaves the collection
empty silently; an array is taken over wholesale as the in-memory
collection, with `donePairs` built from elements having truthy
`solverModel` and `judgeModel` fields. -/
def loadCritiques (file : Option (Except String Jv)) : LoadResult :=
  match file with
  | none => { critiques := [], donePairs := [], warned := false }
  | some (.error _) => { critiques := [], donePairs := [], warned := true }
  | some (.ok v) =>
      match v with
      | .arr elems =>
          { critiques := elems,
            donePairs := elems.filterMap critiquePairKeyOf,
            warned := false }
      | _ => { critiques := [], donePairs := [], warned := false }

/-! ## run-benchmark.ts: solver phase -/

/-- Association-list lookup, modelling a read of the `solutions/` file at
the given slug path (`none`: file does not exist). -/
def lookupFs : List (String × String) → String → Option String
  | [], _ => none
  | (k', v') :: rest, k => if k' = k then some v' else lookupFs rest k

/-- Association-list update, modelling `writeFile` (create or overwrite). -/
def writeFs : List (String × String) → String → String → List (String × String)
  | [], k, v => [(k, v)]
  | (k', v') :: rest, k, v =>
      if k' = k then (k, v) :: rest else (k', v') :: writeFs rest k v

/-- JavaScript `solutions[model] = record` on a string-keyed record:
update in place when the key is present, append otherwise (insertion
order of first assignment is preserved, as `Object.entries` relies on). -/
def recordSet : List (String × SolutionRecord) → String → SolutionRecord →
    List (String × SolutionRecord)
  | [], k, v => [(k, v)]
  | (k', v') :: rest, k, v =>
      if k' = k then (k, v) :: rest else (k', v') :: recordSet rest k v

/-- The validity check on an existing solution file
(`run-benchmark.ts` lines 344-350): not empty after trimming, and the
trimmed content lowercased contains `"<html"`. -/
def validContent (html : String) : Bool :=
  let t := jsTrim html
  !(decide (t.length = 0) || !strIncludes (jsToLower t) "<html")

/-- The solution membership test: a file exists at the slug path and its
content passes `validContent`. -/
def validSolutionFile : Option String → Bool
  | none => false
  | some html => validContent html

/-- Case-insensitive substring containment, as the specification phrases
the document-root-marker check. -/
def caseInsensitiveContains (s pat : String) : Bool :=
  strIncludes (jsToLower s) (jsToLower pat)

/-- State threaded through the solver phase: the `solutions/` directory,
the in-memory `solutions` record (insertion-ordered), and the list of
models for which a generation call was performed. -/
structure SolveState where
  fs : List (String × String)
  solutions : List (String × SolutionRecord)
  solveCalls : List String
deriving Repr, DecidableEq

/-- The generate branch of one solver iteration
(`run-benchmark.ts` lines 374-429): call the model with the solver prompt
and `maxTokens: 12000`; on success write the file and store the record;
on failure log and drop the item (no record, no file). -/
def solveGenerate (fetch : String → String → Nat → HttpResponse)
    (solverPrompt : String) (st : SolveState) (model slug : String) :
    SolveState :=
  match callModel fetch model solverPrompt 12000 with
  | .ok html =>
      { fs := writeFs st.fs slug html,
        solutions := recordSet st.solutions model
          { model := model, slug := slug, html := html },
        solveCalls := st.solveCalls ++ [model] }
  | .error _ => { st with solveCalls := st.solveCalls ++ [model] }

/-- One iteration of the solver loop (`run-benchmark.ts` lines 335-430):
skip falsy models; if a valid solution file exists, load it and skip the
call; otherwise (missing, empty, or markerless file) generate. -/
def solveStep (fetch : String → String → Nat → HttpResponse)
    (solverPrompt : String) (st : SolveState) (model : String) : SolveState :=
  if model = "" then st
  else
    let slug := slugify model
    match lookupFs st.fs slug with
    | some html =>
        if validContent html then
          { st with
            solutions := recordSet st.solutions model
              { model := model, slug := slug, html := html } }
        else solveGenerate fetch solverPrompt st model slug
    | none => solveGenerate fetch solverPrompt st model slug

/-- The whole solver phase over the configured solver model list. -/
def solvePhase (fetch : String → String → Nat → HttpResponse)
    (solverPrompt : String) (fs0 : List (String × String))
    (models : List String) : SolveState :=
  models.foldl (solveStep fetch solverPrompt)
    { fs := fs0, solutions := [], solveCalls := [] }

/-! ## run-benchmark.ts: judge phase -/

/-- State threaded through the judge phase: the critiques appended during
this run (the loaded array is an immutable prefix of the persisted file
and is kept separately in `LoadResult`), the `donePairs` set, the pairs
for which a generation call was performed, and every pair iterated
(skipped or not). -/
structure JudgeState where
  newCritiques : List Critique
  donePairs : List String
  judgeCalls : List (String × String)
  visited : List (String × String)
deriving Repr, DecidableEq

/-- The critique recorded for one judged pair
(`run-benchmark.ts` lines 454-504): on success, the parsed verdict and
explanation; on failure, verdict `"ERROR"` and `String(err)` as the
explanation. -/
def judgeOutcome (fetch : String → String → Nat → HttpResponse)
    (template solverModel slug html judgeModel : String) : Critique :=
  match callModel fetch judgeModel (buildJudgePrompt template html) 4000 with
  | .ok raw =>
      { solverModel := solverModel, solverSlug := slug,
        judgeModel := judgeModel, verdict := (parseVerdict raw).1,
        explanation := (parseVerdict raw).2 }
  | .error e =>
      { solverModel := solverModel, solverSlug := slug,
        judgeModel := judgeModel, verdict := "ERROR",
        explanation := errString judgeModel e }

/-- One iteration of the inner judge loop
(`run-benchmark.ts` lines 438-505): count the pair as iterated; skip it
when its key is already in `donePairs`; otherwise record the outcome
critique and add the key to `donePairs`. -/
def judgeStep (fetch : String → String → Nat → HttpResponse)
    (template solverModel slug html : String) (st : JudgeState)
    (judgeModel : String) : JudgeState :=
  let key := pairKey solverModel judgeModel
  let st1 : JudgeState :=
    { st with visited := st.visited ++ [(solverModel, judgeModel)] }
  if key ∈ st1.donePairs then st1
  else
    { st1 with
      newCritiques := st1.newCritiques ++
        [judgeOutcome fetch template solverModel slug html judgeModel],
      donePairs := st1.donePairs ++ [key],
      judgeCalls := st1.judgeCalls ++ [(solverModel, judgeModel)] }

/-- The whole judge phase (`run-benchmark.ts` lines 433-506): outer loop
over `Object.entries(solutions)` in insertion order, inner loop over the
configured judge model list. -/
def judgePhase (fetch : String → String → Nat → HttpResponse)
    (template : String) (judgeModelList : List String)
    (entries : List (String × SolutionRecord)) (st0 : JudgeState) :
    JudgeState :=
  entries.foldl
    (fun st e =>
      judgeModelList.foldl (judgeStep fetch template e.1 e.2.slug e.2.html) st)
    st0

/-- The flattened iteration space of the judge phase: all (entry, judge)
pairs, outer loop over entries, inner over judges. -/
def judgePairs (entries : List (String × SolutionRecord))
    (judgeModelList : List String) :
    List ((String × SolutionRecord) × String) :=
  entries.flatMap (fun e => judgeModelList.map (fun j => (e, j)))

/-- One judge iteration, uncurried over a flattened pair. -/
def judgePairStep (fetch : String → String → Nat → HttpResponse)
    (template : String) (st : JudgeState)
    (p : (String × SolutionRecord) × String) : JudgeState :=
  judgeStep fetch template p.1.1 p.1.2.slug p.1.2.html st p.2

/-- The pair key of a flattened judge-phase iteration. -/
def pkeyOf (p : (String × SolutionRecord) × String) : String :=
  pairKey p.1.1 p.2

/-! ## Concrete fixtures used by the witness theorems -/

/-- A failing HTTP response. -/
def sampleFailResponse : HttpResponse :=
  { ok := false, status := 500, statusText := "ERR", bodyText := "boom",
    content := none }

/-- A successful HTTP response with plain string content. -/
def sampleOkResponse (s : String) : HttpResponse :=
  { ok := true, status := 200, statusText := "OK", bodyText := "",
    content := some (.str s) }

/-- A network where every call succeeds with a YES verdict text. -/
def sampleFetchOk : String → String → Nat → HttpResponse :=
  fun _ _ _ => sampleOkResponse "YES\n\nfine"

/-- A network where every call fails. -/
def sampleFetchFail : String → String → Nat → HttpResponse :=
  fun _ _ _ => sampleFailResponse

/-- A network failing exactly for the model named "bad". -/
def sampleFetchMixed : String → String → Nat → HttpResponse :=
  fun m _ _ =>
    if m = "bad" then sampleFailResponse else sampleOkResponse "<html>sol"

/-- A concrete solution record. -/
def sampleRecord : SolutionRecord :=
  { model := "s1", slug := "s1", html := "<html>x" }

/-- A concrete well-shaped loaded critique JSON object. -/
def sampleCritJv : Jv :=
  .obj [("solverModel", .str "a"), ("judgeModel", .str "b")]

/-! ## Helper lemmas: judge phase as one fold -/

theorem ckey_judgeOutcome (fetch : String → String → Nat → HttpResponse)
    (template s sl h j : String) :
    ckey (judgeOutcome fetch template s sl h j) = pairKey s j := by
  unfold judgeOutcome
  cases callModel fetch j (buildJudgePrompt template h) 4000 <;> rfl

theorem solverModel_judgeOutcome (fetch : String → String → Nat → HttpResponse)
    (template s sl h j : String) :
    (judgeOutcome fetch template s sl h j).solverModel = s := by
  unfold judgeOutcome
  cases callModel fetch j (buildJudgePrompt template h) 4000 <;> rfl

theorem judgePairStep_skip (fetch : String → String → Nat → HttpResponse)
    (template : String) (st : JudgeState) (p : (String × SolutionRecord) × String)
    (hp : pkeyOf p ∈ st.donePairs) :
    judgePairStep fetch template st p =
      JudgeState.mk st.newCritiques st.donePairs st.judgeCalls
        (st.visited ++ [(p.1.1, p.2)]) := by
  unfold judgePairStep judgeStep
  simp only [pkeyOf] at hp
  simp [hp]

theorem judgePairStep_add (fetch : String → String → Nat → HttpResponse)
    (template : String) (st : JudgeState) (p : (String × SolutionRecord) × String)
    (hp : pkeyOf p ∉ st.donePairs) :
    judgePairStep fetch template st p =
      JudgeState.mk
        (st.newCritiques ++
          [judgeOutcome fetch template p.1.1 p.1.2.slug p.1.2.html p.2])
        (st.donePairs ++ [pkeyOf p])
        (st.judgeCalls ++ [(p.1.1, p.2)])
        (st.visited ++ [(p.1.1, p.2)]) := by
  unfold judgePairStep judgeStep
  simp only [pkeyOf] at hp
  simp [hp, pkeyOf]

theorem judgePhase_eq_foldl (fetch : String → String → Nat → HttpResponse)
    (template : String) (jm : List String)
    (entries : List (String × SolutionRecord)) (st0 : JudgeState) :
    judgePhase fetch template jm entries st0
      = (judgePairs entries jm).foldl (judgePairStep fetch template) st0 := by
  induction entries generalizing st0 with
  | nil => rfl
  | cons e es ih =>
      show judgePhase fetch template jm es
          (jm.foldl (judgeStep fetch template e.1 e.2.slug e.2.html) st0) = _
      rw [ih]
      simp only [judgePairs, List.flatMap_cons, List.foldl_append, List.foldl_map]
      rfl

theorem foldl_visited (fetch : String → String → Nat → HttpResponse)
    (template : String) (P : List ((String × SolutionRecord) × String))
    (st : JudgeState) :
    (P.foldl (judgePairStep fetch template) st).visited
      = st.visited ++ P.map (fun p => (p.1.1, p.2)) := by
  induction P generalizing st with
  | nil => simp
  | cons p P ih =>
      rw [List.foldl_cons, ih]
      by_cases hp : pkeyOf p ∈ st.donePairs
      · rw [judgePairStep_skip fetch template st p hp]
        simp
      · rw [judgePairStep_add fetch template st p hp]
        simp

theorem foldl_skip_done (fetch : String → String → Nat → HttpResponse)
    (template : String) (P : List ((String × SolutionRecord) × String))
    (st : JudgeState) (k : String) (hk : k ∈ st.donePairs) :
    ((P.foldl (judgePairStep fetch template) st).newCritiques.filter
        (fun c => decide (ckey c = k))
      = st.newCritiques.filter (fun c => decide (ckey c = k)))
    ∧ ((P.foldl (judgePairStep fetch template) st).judgeCalls.filter
        (fun q => decide (pairKey q.1 q.2 = k))
      = st.judgeCalls.filter (fun q => decide (pairKey q.1 q.2 = k))) := by
  induction P generalizing st with
  | nil => exact ⟨rfl, rfl⟩
  | cons p P ih =>
      rw [List.foldl_cons]
      by_cases hp : pkeyOf p ∈ st.donePairs
      · rw [judgePairStep_skip fetch template st p hp]
        exact ih _ hk
      · have hne : pkeyOf p ≠ k := fun h => hp (h ▸ hk)
        rw [judgePairStep_add fetch template st p hp]
        have hk' : k ∈ st.donePairs ++ [pkeyOf p] := List.mem_append_left _ hk
        obtain ⟨h1, h2⟩ := ih (JudgeState.mk
          (st.newCritiques ++
            [judgeOutcome fetch template p.1.1 p.1.2.slug p.1.2.html p.2])
          (st.donePairs ++ [pkeyOf p])
          (st.judgeCalls ++ [(p.1.1, p.2)])
          (st.visited ++ [(p.1.1, p.2)])) hk'
        have hne' : pairKey p.1.1 p.2 ≠ k := hne
        constructor
        · rw [h1]
          simp [List.filter_append, ckey_judgeOutcome, hne']
        · rw [h2]
          simp only [List.filter_append]
          have : pairKey p.1.1 p.2 ≠ k := hne
          simp [this]

theorem foldl_pending_filter (fetch : String → String → Nat → HttpResponse)
    (template : String) (P : List ((String × SolutionRecord) × String))
    (st : JudgeState) (k : String) (hk : k ∉ st.donePairs) :
    (P.foldl (judgePairStep fetch template) st).newCritiques.filter
        (fun c => decide (ckey c = k))
      = st.newCritiques.filter (fun c => decide (ckey c = k))
        ++ (match P.find? (fun p => decide (pkeyOf p = k)) with
            | none => []
            | some p =>
                [judgeOutcome fetch template p.1.1 p.1.2.slug p.1.2.html p.2]) := by
  induction P generalizing st with
  | nil => simp
  | cons p P ih =>
      rw [List.foldl_cons]
      by_cases hp : pkeyOf p ∈ st.donePairs
      · have hne : pkeyOf p ≠ k := fun h => hk (h ▸ hp)
        rw [judgePairStep_skip fetch template st p hp]
        rw [ih (JudgeState.mk st.newCritiques st.donePairs st.judgeCalls
          (st.visited ++ [(p.1.1, p.2)])) hk]
        simp [List.find?_cons, hne]
      · by_cases hpk : pkeyOf p = k
        · rw [judgePairStep_add fetch template st p hp]
          have hk' : k ∈ st.donePairs ++ [pkeyOf p] := by
            rw [hpk]; exact List.mem_append_right _ (List.mem_singleton_self _)
          have hskip := (foldl_skip_done fetch template P (JudgeState.mk
            (st.newCritiques ++
              [judgeOutcome fetch template p.1.1 p.1.2.slug p.1.2.html p.2])
            (st.donePairs ++ [pkeyOf p])
            (st.judgeCalls ++ [(p.1.1, p.2)])
            (st.visited ++ [(p.1.1, p.2)])) k hk').1
          rw [hskip]
          simp only [List.filter_append, List.find?_cons, hpk]
          have hck : ckey (judgeOutcome fetch template p.1.1 p.1.2.slug
              p.1.2.html p.2) = k := by rw [ckey_judgeOutcome]; exact hpk
          simp [hck]
        · rw [judgePairStep_add fetch template st p hp]
          have hk' : k ∉ st.donePairs ++ [pkeyOf p] := by
            intro h
            rcases List.mem_append.mp h with h | h
            · exact hk h
            · exact hpk (List.mem_singleton.mp h).symm
          rw [ih (JudgeState.mk
            (st.newCritiques ++
              [judgeOutcome fetch template p.1.1 p.1.2.slug p.1.2.html p.2])
            (st.donePairs ++ [pkeyOf p])
            (st.judgeCalls ++ [(p.1.1, p.2)])
            (st.visited ++ [(p.1.1, p.2)])) hk']
          have hck : ckey (judgeOutcome fetch template p.1.1 p.1.2.slug
              p.1.2.html p.2) ≠ k := by rw [ckey_judgeOutcome]; exact hpk
          simp [List.filter_append, List.find?_cons, hpk, hck]

theorem foldl_nodup (fetch : String → String → Nat → HttpResponse)
    (template : String) (P : List ((String × SolutionRecord) × String))
    (st : JudgeState)
    (hinv : ∀ c ∈ st.newCritiques, ckey c ∈ st.donePairs)
    (hnd : (st.newCritiques.map ckey).Nodup) :
    ((P.foldl (judgePairStep fetch template) st).newCritiques.map ckey).Nodup := by
  induction P generalizing st with
  | nil => exact hnd
  | cons p P ih =>
      rw [List.foldl_cons]
      by_cases hp : pkeyOf p ∈ st.donePairs
      · rw [judgePairStep_skip fetch template st p hp]
        exact ih _ hinv hnd
      · rw [judgePairStep_add fetch template st p hp]
        apply ih
        · intro c hc
          rcases List.mem_append.mp hc with h | h
          · exact List.mem_append_left _ (hinv c h)
          · have : c = judgeOutcome fetch template p.1.1 p.1.2.slug
                p.1.2.html p.2 := List.mem_singleton.mp h
            rw [this, ckey_judgeOutcome]
            exact List.mem_append_right _ (List.mem_singleton_self _)
        · rw [List.map_append]
          rw [List.nodup_append]
          refine ⟨hnd, by simp, ?_⟩
          intro a ha hb
          simp only [List.map_cons, List.map_nil, List.mem_singleton,
            ckey_judgeOutcome] at hb
          rw [hb] at ha
          rcases List.mem_map.mp ha with ⟨c, hc, hck⟩
          apply hp
          show pairKey p.1.1 p.2 ∈ st.donePairs
          rw [← hck]
          exact hinv c hc

theorem foldl_solver_origin (fetch : String → String → Nat → HttpResponse)
    (template : String) (P : List ((String × SolutionRecord) × String))
    (st : JudgeState) :
    ∀ c ∈ (P.foldl (judgePairStep fetch template) st).newCritiques,
      c ∈ st.newCritiques ∨ c.solverModel ∈ P.map (fun p => p.1.1) := by
  induction P generalizing st with
  | nil => intro c hc; exact Or.inl hc
  | cons p P ih =>
      intro c hc
      rw [List.foldl_cons] at hc
      by_cases hp : pkeyOf p ∈ st.donePairs
      · rw [judgePairStep_skip fetch template st p hp] at hc
        rcases ih _ c hc with h | h
        · exact Or.inl h
        · exact Or.inr (List.mem_cons_of_mem _ h)
      · rw [judgePairStep_add fetch template st p hp] at hc
        rcases ih _ c hc with h | h
        · rcases List.mem_append.mp h with h | h
          · exact Or.inl h
          · refine Or.inr ?_
            have : c = judgeOutcome fetch template p.1.1 p.1.2.slug
                p.1.2.html p.2 := List.mem_singleton.mp h
            rw [this, solverModel_judgeOutcome]
            exact List.mem_cons_self _ _
        · exact Or.inr (List.mem_cons_of_mem _ h)

theorem assoc_unique {β : Type} (l : List (String × β)) (k : String) (v w : β)
    (hnd : (l.map Prod.fst).Nodup) (hv : (k, v) ∈ l) (hw : (k, w) ∈ l) :
    v = w := by
  induction l with
  | nil => cases hv
  | cons e l ih =>
      rw [List.map_cons, List.nodup_cons] at hnd
      rcases List.mem_cons.mp hv with h1 | h1 <;>
        rcases List.mem_cons.mp hw with h2 | h2
      · exact congrArg Prod.snd (h1.trans h2.symm)
      · exfalso
        apply hnd.1
        rw [← congrArg Prod.fst h1]
        exact List.mem_map.mpr ⟨(k, w), h2, rfl⟩
      · exfalso
        apply hnd.1
        rw [← congrArg Prod.fst h2]
        exact List.mem_map.mpr ⟨(k, v), h1, rfl⟩
      · exact ih hnd.2 h1 h2

/-! ## Helper lemmas: solver phase -/

theorem lookup_writeFs (fs : List (String × String)) (k v : String) :
    lookupFs (writeFs fs k v) k = some v := by
  induction fs with
  | nil => simp [writeFs, lookupFs]
  | cons e rest ih =>
      rcases e with ⟨a, b⟩
      by_cases h : a = k
      · simp [writeFs, lookupFs, h]
      · simp [writeFs, lookupFs, h, ih]

theorem keys_recordSet (l : List (String × SolutionRecord)) (k : String)
    (v : SolutionRecord) :
    ∀ k', k' ∈ (recordSet l k v).map Prod.fst →
      k' = k ∨ k' ∈ l.map Prod.fst := by
  induction l with
  | nil =>
      intro k' h
      simp [recordSet] at h
      exact Or.inl h
  | cons e rest ih =>
      intro k' h
      by_cases he : e.1 = k
      · rcases e with ⟨a, b⟩
        simp only [recordSet, if_pos he] at h
        rcases List.mem_map.mp h with ⟨q, hq, hk'⟩
        rcases List.mem_cons.mp hq with h1 | h1
        · exact Or.inl (by rw [← hk', h1])
        · exact Or.inr (List.mem_map.mpr ⟨q, List.mem_cons_of_mem _ h1, hk'⟩)
      · rcases e with ⟨a, b⟩
        simp only [recordSet, if_neg he] at h
        rcases List.mem_map.mp h with ⟨q, hq, hk'⟩
        rcases List.mem_cons.mp hq with h1 | h1
        · exact Or.inr (by rw [← hk', h1]; simp)
        · rcases ih k' (List.mem_map.mpr ⟨q, h1, hk'⟩) with h2 | h2
          · exact Or.inl h2
          · exact Or.inr (by simp [h2])

theorem solveStep_keys (fetch : String → String → Nat → HttpResponse)
    (prompt : String) (st : SolveState) (m : String) :
    ∀ k, k ∈ (solveStep fetch prompt st m).solutions.map Prod.fst →
      k = m ∨ k ∈ st.solutions.map Prod.fst := by
  intro k hk
  unfold solveStep solveGenerate at hk
  by_cases hm : m = ""
  · simp only [hm, if_pos rfl] at hk
    exact Or.inr hk
  · simp only [if_neg hm] at hk
    cases hl : lookupFs st.fs (slugify m) with
    | some html =>
        rw [hl] at hk
        by_cases hv : validContent html
        · simp only [if_pos hv] at hk
          exact keys_recordSet _ _ _ k hk
        · simp only [if_neg hv] at hk
          cases hc : callModel fetch m prompt 12000 with
          | ok h2 => rw [hc] at hk; exact keys_recordSet _ _ _ k hk
          | error e => rw [hc] at hk; exact Or.inr hk
    | none =>
        rw [hl] at hk
        cases hc : callModel fetch m prompt 12000 with
        | ok h2 => rw [hc] at hk; exact keys_recordSet _ _ _ k hk
        | error e => rw [hc] at hk; exact Or.inr hk

theorem solveFold_keys (fetch : String → String → Nat → HttpResponse)
    (prompt : String) (models : List String) (st : SolveState) :
    ∀ k, k ∈ ((models.foldl (solveStep fetch prompt) st).solutions.map
        Prod.fst) →
      k ∈ st.solutions.map Prod.fst ∨ k ∈ models := by
  induction models generalizing st with
  | nil => intro k hk; exact Or.inl hk
  | cons m ms ih =>
      intro k hk
      rw [List.foldl_cons] at hk
      rcases ih (solveStep fetch prompt st m) k hk with h | h
      · rcases solveStep_keys fetch prompt st m k h with h1 | h1
        · exact Or.inr (by simp [h1])
        · exact Or.inl h1
      · exact Or.inr (List.mem_cons_of_mem _ h)

theorem solveStep_failed (fetch : String → String → Nat → HttpResponse)
    (prompt : String) (st : SolveState) (m : String) (e : CallError)
    (hfile : validSolutionFile (lookupFs st.fs (slugify m)) = false)
    (hfail : callModel fetch m prompt 12000 = .error e) :
    (solveStep fetch prompt st m).fs = st.fs ∧
    (solveStep fetch prompt st m).solutions = st.solutions := by
  unfold solveStep solveGenerate
  by_cases hm : m = ""
  · simp [hm]
  · simp only [if_neg hm]
    cases hl : lookupFs st.fs (slugify m) with
    | some html =>
        rw [hl] at hfile
        have hv : validContent html = false := hfile
        simp [hv, hfail]
    | none => simp [hfail]

theorem solveStep_shift (fetch : String → String → Nat → HttpResponse)
    (prompt : String) (fs : List (String × String))
    (sols : List (String × SolutionRecord)) (c : List String) (m : String) :
    solveStep fetch prompt (SolveState.mk fs sols c) m =
      SolveState.mk
        (solveStep fetch prompt (SolveState.mk fs sols []) m).fs
        (solveStep fetch prompt (SolveState.mk fs sols []) m).solutions
        (c ++ (solveStep fetch prompt (SolveState.mk fs sols []) m).solveCalls)
    := by
  unfold solveStep solveGenerate
  by_cases hm : m = ""
  · simp [hm]
  · simp only [if_neg hm]
    cases hl : lookupFs fs (slugify m) with
    | some html =>
        by_cases hv : validContent html
        · simp [hv]
        · cases hc : callModel fetch m prompt 12000 <;> simp [hv, hc]
    | none => cases hc : callModel fetch m prompt 12000 <;> simp [hc]

theorem solveFold_calls (fetch : String → String → Nat → HttpResponse)
    (prompt : String) (models : List String) (fs : List (String × String))
    (sols : List (String × SolutionRecord)) (c1 c2 : List String) :
    ((models.foldl (solveStep fetch prompt) (SolveState.mk fs sols c1)).fs
      = (models.foldl (solveStep fetch prompt) (SolveState.mk fs sols c2)).fs)
    ∧ ((models.foldl (solveStep fetch prompt)
          (SolveState.mk fs sols c1)).solutions
      = (models.foldl (solveStep fetch prompt)
          (SolveState.mk fs sols c2)).solutions) := by
  induction models generalizing fs sols c1 c2 with
  | nil => exact ⟨rfl, rfl⟩
  | cons m ms ih =>
      rw [List.foldl_cons, List.foldl_cons,
        solveStep_shift fetch prompt fs sols c1 m,
        solveStep_shift fetch prompt fs sols c2 m]
      exact ih _ _ _ _

/-! ## Claims -/

theorem slugChar_idem (c : Char) : slugChar (slugChar c) = slugChar c := by
  by_cases h : c = '/' ∨ c = ':'
  · simp only [slugChar, if_pos h]
    decide
  · simp only [slugChar, if_neg h]

theorem slugChar_safe (c : Char) : slugChar c ≠ '/' ∧ slugChar c ≠ ':' := by
  by_cases h : c = '/' ∨ c = ':'
  · rw [slugChar, if_pos h]
    exact ⟨by decide, by decide⟩
  · rw [slugChar, if_neg h]
    push_neg at h
    exact h

/-- C10: the slug function is deterministic and idempotent: for every
model identifier `m`, `slugify (slugify m) = slugify m`, and `slugify m`
contains no `/` or `:` characters. -/
theorem c10_slugify_idempotent_and_safe (m : String) :
    slugify (slugify m) = slugify m ∧
    ∀ c ∈ (slugify m).data, c ≠ '/' ∧ c ≠ ':' := by
  constructor
  · show String.mk (((String.mk (m.data.map slugChar)).data).map slugChar) = _
    rw [show ((String.mk (m.data.map slugChar)).data) = m.data.map slugChar
      from rfl]
    rw [List.map_map]
    have : ∀ c ∈ m.data, (slugChar ∘ slugChar) c = slugChar c := by
      intro c _
      exact slugChar_idem c
    rw [List.map_congr_left this]
    rfl
  · intro c hc
    rw [show (slugify m).data = m.data.map slugChar from rfl] at hc
    rcases List.mem_map.mp hc with ⟨b, _, hb⟩
    rw [← hb]
    exact slugChar_safe b

/-- C10 witness: the theorem applied at the concrete model id "a/b:c". -/
theorem c10_witness :
    slugify (slugify "a/b:c") = slugify "a/b:c" ∧ ('_' ≠ '/' ∧ '_' ≠ ':') :=
  ⟨(c10_slugify_idempotent_and_safe "a/b:c").1,
   (c10_slugify_idempotent_and_safe "a/b:c").2 '_' (by decide)⟩

/-- C3: for every input string, `parseVerdict` behaves as the reference
definition `parseVerdictSpec` built from the specification's wording:
first non-empty trimmed line (none: verdict ERROR, explanation
"Empty response"), affirmative verdict iff that line case-insensitively
equals "YES", negative otherwise, explanation the trimmed remaining
lines rejoined with newlines and trimmed. -/
theorem c3_parse_verdict_matches_reference (raw : String) :
    parseVerdict raw = parseVerdictSpec raw := by
  unfold parseVerdict parseVerdictSpec
  cases h : ((jsSplitLines raw).map jsTrim).findIdx? (fun l => decide (0 < l.length)) with
  | none => simp [h]
  | some idx =>
      simp only [h, caseInsensitiveEq]
      have hup : jsToUpper "YES" = "YES" := by decide
      by_cases hy : jsToUpper (((jsSplitLines raw).map jsTrim).getD idx "") = "YES"
      · simp [hy, hup]
      · simp [hy, hup]

/-- C7: the completion client: a non-ok response fails with the status,
status text and raw error body; string content is returned as is;
fragment-sequence content is returned joined with newlines; any other
content shape fails with a shape mismatch; and a call consumes exactly
one response from the stream — it never retries. -/
theorem c7_completion_client_behaviour (r : HttpResponse)
    (rest : List HttpResponse) :
    (callOpenRouterOn (r :: rest) = some (callOpenRouter r, rest)) ∧
    (r.ok = false →
      callOpenRouter r = .error (.requestFailure r.status r.statusText r.bodyText)) ∧
    (∀ s, r.ok = true → r.content = some (.str s) → callOpenRouter r = .ok s) ∧
    (∀ parts, r.ok = true → r.content = some (.fragments parts) →
      callOpenRouter r =
        .ok (String.intercalate "\n" (parts.map (fun p => p.getD "")))) ∧
    (r.ok = true → (r.content = some .other ∨ r.content = none) →
      callOpenRouter r = .error .shapeMismatch) := by
  refine ⟨rfl, ?_, ?_, ?_, ?_⟩
  · intro h
    simp [callOpenRouter, h]
  · intro s hok h
    simp [callOpenRouter, hok, h]
  · intro parts hok h
    simp [callOpenRouter, hok, h]
  · intro hok h
    rcases h with h | h <;> simp [callOpenRouter, hok, h]

/-- C7 witness: the theorem applied at a failing and a succeeding
concrete response. -/
theorem c7_witness :
    callOpenRouter sampleFailResponse = .error (.requestFailure 500 "ERR" "boom") ∧
    callOpenRouter (sampleOkResponse "hi") = .ok "hi" :=
  ⟨(c7_completion_client_behaviour sampleFailResponse []).2.1 rfl,
   (c7_completion_client_behaviour (sampleOkResponse "hi") []).2.2.1 "hi" rfl rfl⟩

/-- C9: on fragment-sequence content the completion client never fails:
a fragment without text contributes the empty string, and an empty
fragment sequence yields the empty string, not a shape mismatch. -/
theorem c9_fragments_never_fail (r : HttpResponse)
    (parts : List (Option String)) (hok : r.ok = true)
    (hc : r.content = some (.fragments parts)) :
    (callOpenRouter r =
      .ok (String.intercalate "\n" (parts.map (fun p => p.getD "")))) ∧
    (∃ s, callOpenRouter r = .ok s) ∧
    (parts = [] → callOpenRouter r = .ok "") := by
  have h : callOpenRouter r =
      .ok (String.intercalate "\n" (parts.map (fun p => p.getD ""))) := by
    simp [callOpenRouter, hok, hc]
  refine ⟨h, ⟨_, h⟩, ?_⟩
  intro hnil
  rw [h, hnil]
  rfl

/-- C9 witness: the theorem applied at a concrete response whose
fragments lack text fields, and at one with no fragments. -/
theorem c9_witness :
    (callOpenRouter ⟨true, 200, "OK", "", some (.fragments [none, some "a"])⟩
      = .ok "\na") ∧
    (callOpenRouter ⟨true, 200, "OK", "", some (.fragments [])⟩ = .ok "") :=
  ⟨(c9_fragments_never_fail _ [none, some "a"] rfl rfl).1,
   (c9_fragments_never_fail _ [] rfl rfl).2.2 rfl⟩

/-- C4 counterexample: a prior critique file parsing to the JSON array
`[1, 2, 3]` is not a well-formed sequence of Critique-shaped records, yet
the loader neither logs a warning nor discards it: the whole array is
carried into the in-memory collection. -/
theorem c4_counterexample :
    ¬ ((loadCritiques (some (.ok (.arr [.num 1, .num 2, .num 3])))).warned = true ∧
       (loadCritiques (some (.ok (.arr [.num 1, .num 2, .num 3])))).critiques = []) := by
  intro h
  have h1 : (false : Bool) = true := h.1
  cases h1

/-- C4 amended: on a file whose content fails `JSON.parse` the loader
warns and starts empty; on valid JSON that is not an array it starts
empty silently; on an array it adopts the whole array — Critique-shaped
or not — as the in-memory collection and builds the resume index from
the elements with truthy `solverModel` and `judgeModel` fields; a
missing file starts empty; no input crashes the load. -/
theorem c4_load_critiques_characterisation :
    (loadCritiques none = LoadResult.mk [] [] false) ∧
    (∀ msg, loadCritiques (some (.error msg)) = LoadResult.mk [] [] true) ∧
    (∀ v, (∀ l, v ≠ .arr l) →
      loadCritiques (some (.ok v)) = LoadResult.mk [] [] false) ∧
    (∀ l, loadCritiques (some (.ok (.arr l)))
      = LoadResult.mk l (l.filterMap critiquePairKeyOf) false) := by
  refine ⟨rfl, fun _ => rfl, ?_, fun _ => rfl⟩
  intro v hv
  cases v with
  | arr l => exact absurd rfl (hv l)
  | null => rfl
  | bool b => rfl
  | num n => rfl
  | str s => rfl
  | obj f => rfl

/-- C4 witness: the amended theorem applied at concrete file contents. -/
theorem c4_witness :
    (loadCritiques (some (.error "bad json")) = LoadResult.mk [] [] true) ∧
    (loadCritiques (some (.ok (.str "oops"))) = LoadResult.mk [] [] false) ∧
    (loadCritiques (some (.ok (.arr [.num 7])))
      = LoadResult.mk [.num 7] ([Jv.num 7].filterMap critiquePairKeyOf) false) :=
  ⟨c4_load_critiques_characterisation.2.1 "bad json",
   c4_load_critiques_characterisation.2.2.1 (.str "oops")
     (fun _l h => Jv.noConfusion h),
   c4_load_critiques_characterisation.2.2.2 [.num 7]⟩

/-- C1: every pair key in the `donePairs` index built from the critique
collection loaded at startup is skipped by the judge phase — no
generation call is made for it and no new critique with that key is
appended — and the pair keys of the critiques newly appended in a single
run are distinct. -/
theorem c1_resume_skip_and_uniqueness
    (fetch : String → String → Nat → HttpResponse) (template : String)
    (jm : List String) (entries : List (String × SolutionRecord))
    (file : Option (Except String Jv)) (k : String)
    (hk : k ∈ (loadCritiques file).donePairs) :
    ((judgePhase fetch template jm entries
        (JudgeState.mk [] (loadCritiques file).donePairs [] [])).newCritiques.filter
        (fun c => decide (ckey c = k)) = []) ∧
    ((judgePhase fetch template jm entries
        (JudgeState.mk [] (loadCritiques file).donePairs [] [])).judgeCalls.filter
        (fun q => decide (pairKey q.1 q.2 = k)) = []) ∧
    ((judgePhase fetch template jm entries
        (JudgeState.mk [] (loadCritiques file).donePairs [] [])).newCritiques.map
        ckey).Nodup := by
  rw [judgePhase_eq_foldl]
  obtain ⟨h1, h2⟩ := foldl_skip_done fetch template (judgePairs entries jm)
    (JudgeState.mk [] (loadCritiques file).donePairs [] []) k hk
  refine ⟨?_, ?_, ?_⟩
  · rw [h1]; rfl
  · rw [h2]; rfl
  · exact foldl_nodup fetch template (judgePairs entries jm)
      (JudgeState.mk [] (loadCritiques file).donePairs [] [])
      (fun c hc => absurd hc (List.not_mem_nil c)) List.nodup_nil

/-- C1 witness: the theorem applied with a loaded collection containing
the pair key "a|b" and a run that would otherwise judge that pair. -/
theorem c1_witness :
    ((judgePhase sampleFetchOk "T" ["b"] [("a", ⟨"a", "a", "<html>"⟩)]
        (JudgeState.mk []
          (loadCritiques (some (.ok (.arr [sampleCritJv])))).donePairs
          [] [])).newCritiques.filter
        (fun c => decide (ckey c = "a|b")) = []) ∧
    ((judgePhase sampleFetchOk "T" ["b"] [("a", ⟨"a", "a", "<html>"⟩)]
        (JudgeState.mk []
          (loadCritiques (some (.ok (.arr [sampleCritJv])))).donePairs
          [] [])).judgeCalls.filter
        (fun q => decide (pairKey q.1 q.2 = "a|b")) = []) ∧
    ((judgePhase sampleFetchOk "T" ["b"] [("a", ⟨"a", "a", "<html>"⟩)]
        (JudgeState.mk []
          (loadCritiques (some (.ok (.arr [sampleCritJv])))).donePairs
          [] [])).newCritiques.map ckey).Nodup :=
  c1_resume_skip_and_uniqueness sampleFetchOk "T" ["b"]
    [("a", ⟨"a", "a", "<html>"⟩)] (some (.ok (.arr [sampleCritJv]))) "a|b"
    (by decide)

theorem judgePairs_proj (entries : List (String × SolutionRecord))
    (jm : List String) :
    (judgePairs entries jm).map (fun p => (p.1.1, p.2))
      = entries.flatMap (fun e => jm.map (fun j => (e.1, j))) := by
  induction entries with
  | nil => rfl
  | cons e es ih =>
      simp only [judgePairs, List.flatMap_cons, List.map_append] at *
      rw [ih]
      simp [List.map_map]

/-- C8: the judge phase iterates exactly the cross product of the
in-memory solutions obtained by the solve phase (outer loop, in the
order the solutions were obtained) with the configured judge list
(inner loop, in configured order); a solver with no solution
contributes no pairs. -/
theorem c8_judge_iteration_order
    (fetch : String → String → Nat → HttpResponse)
    (solverPrompt template : String) (jm models : List String)
    (fs0 : List (String × String)) (done0 : List String) :
    ((judgePhase fetch template jm
        (solvePhase fetch solverPrompt fs0 models).solutions
        (JudgeState.mk [] done0 [] [])).visited
      = (solvePhase fetch solverPrompt fs0 models).solutions.flatMap
          (fun e => jm.map (fun j => (e.1, j)))) ∧
    (∀ s, s ∉ (solvePhase fetch solverPrompt fs0 models).solutions.map
        Prod.fst →
      ∀ j, (s, j) ∉ (judgePhase fetch template jm
        (solvePhase fetch solverPrompt fs0 models).solutions
        (JudgeState.mk [] done0 [] [])).visited) := by
  have hv : (judgePhase fetch template jm
      (solvePhase fetch solverPrompt fs0 models).solutions
      (JudgeState.mk [] done0 [] [])).visited
      = (solvePhase fetch solverPrompt fs0 models).solutions.flatMap
          (fun e => jm.map (fun j => (e.1, j))) := by
    rw [judgePhase_eq_foldl, foldl_visited, judgePairs_proj]
    rfl
  refine ⟨hv, ?_⟩
  intro s hs j hmem
  rw [hv] at hmem
  rcases List.mem_flatMap.mp hmem with ⟨e, he, hin⟩
  rcases List.mem_map.mp hin with ⟨j', _, hj⟩
  apply hs
  have : e.1 = s := congrArg Prod.fst hj
  rw [← this]
  exact List.mem_map.mpr ⟨e, he, rfl⟩

/-- C8 witness: the theorem applied at a concrete run in which the
model "bad" fails to produce a solution and contributes no pairs. -/
theorem c8_witness :
    ((judgePhase sampleFetchMixed "T" ["j1", "j2"]
        (solvePhase sampleFetchMixed "P" [] ["good", "bad"]).solutions
        (JudgeState.mk [] [] [] [])).visited
      = (solvePhase sampleFetchMixed "P" [] ["good", "bad"]).solutions.flatMap
          (fun e => ["j1", "j2"].map (fun j => (e.1, j)))) ∧
    (("bad", "j1") ∉ (judgePhase sampleFetchMixed "T" ["j1", "j2"]
        (solvePhase sampleFetchMixed "P" [] ["good", "bad"]).solutions
        (JudgeState.mk [] [] [] [])).visited) :=
  ⟨(c8_judge_iteration_order sampleFetchMixed "P" "T" ["j1", "j2"]
      ["good", "bad"] [] []).1,
   (c8_judge_iteration_order sampleFetchMixed "P" "T" ["j1", "j2"]
      ["good", "bad"] [] []).2 "bad" (by decide) "j1"⟩

/-- C2: a judge-phase pair whose completion call fails still gets exactly
one critique, with verdict ERROR and the failure's string representation
as the explanation, and the loop iterates all remaining pairs. -/
theorem c2_failed_judge_call_recorded
    (fetch : String → String → Nat → HttpResponse) (template : String)
    (jm : List String) (entries : List (String × SolutionRecord))
    (done0 : List String) (s j : String) (rec : SolutionRecord)
    (e : CallError)
    (hmem : (s, rec) ∈ entries)
    (hnd : (entries.map Prod.fst).Nodup)
    (hj : j ∈ jm)
    (hkey : ∀ p ∈ entries, ∀ j' ∈ jm,
      pairKey p.1 j' = pairKey s j → p.1 = s ∧ j' = j)
    (hdone : pairKey s j ∉ done0)
    (hfail : callModel fetch j (buildJudgePrompt template rec.html) 4000
      = .error e) :
    ((judgePhase fetch template jm entries
        (JudgeState.mk [] done0 [] [])).newCritiques.filter
        (fun c => decide (ckey c = pairKey s j))
      = [Critique.mk s rec.slug j "ERROR" (errString j e)]) ∧
    ((judgePhase fetch template jm entries
        (JudgeState.mk [] done0 [] [])).visited
      = entries.flatMap (fun p => jm.map (fun j' => (p.1, j')))) := by
  constructor
  · rw [judgePhase_eq_foldl]
    rw [foldl_pending_filter fetch template (judgePairs entries jm)
      (JudgeState.mk [] done0 [] []) (pairKey s j) hdone]
    have hfind : (judgePairs entries jm).find?
        (fun p => decide (pkeyOf p = pairKey s j)) = some ((s, rec), j) := by
      cases hcase : (judgePairs entries jm).find?
          (fun p => decide (pkeyOf p = pairKey s j)) with
      | none =>
          exfalso
          have hmem' : ((s, rec), j) ∈ judgePairs entries jm :=
            List.mem_flatMap.mpr ⟨(s, rec), hmem, List.mem_map.mpr ⟨j, hj, rfl⟩⟩
          have := List.find?_eq_none.mp hcase _ hmem'
          simp [pkeyOf] at this
      | some p =>
          have hp := List.find?_some hcase
          have hpmem := List.mem_of_find?_eq_some hcase
          rcases List.mem_flatMap.mp hpmem with ⟨en, hen, hin⟩
          rcases List.mem_map.mp hin with ⟨j0, hj0, hpj⟩
          rw [← hpj] at hp
          simp only [pkeyOf, decide_eq_true_eq] at hp
          obtain ⟨hs1, hj1⟩ := hkey en hen j0 hj0 hp
          have hen' : (s, en.2) ∈ entries := by
            rw [← hs1]
            exact hen
          have hrec : en.2 = rec := assoc_unique entries s en.2 rec hnd hen' hmem
          rw [← hpj]
          rcases en with ⟨a, b⟩
          simp only at hs1 hrec
          rw [hs1, hrec, hj1]
    rw [hfind]
    simp [judgeOutcome, hfail]
  · rw [judgePhase_eq_foldl, foldl_visited, judgePairs_proj]
    rfl

/-- C2 witness: the theorem applied at a concrete run in which the only
judge call fails with HTTP 500. -/
theorem c2_witness :
    ((judgePhase sampleFetchFail "T" ["j1"] [("s1", sampleRecord)]
        (JudgeState.mk [] [] [] [])).newCritiques.filter
        (fun c => decide (ckey c = pairKey "s1" "j1"))
      = [Critique.mk "s1" sampleRecord.slug "j1" "ERROR"
          (errString "j1" (.requestFailure 500 "ERR" "boom"))]) ∧
    ((judgePhase sampleFetchFail "T" ["j1"] [("s1", sampleRecord)]
        (JudgeState.mk [] [] [] [])).visited
      = [("s1", sampleRecord)].flatMap
          (fun p => ["j1"].map (fun j' => (p.1, j')))) :=
  c2_failed_judge_call_recorded sampleFetchFail "T" ["j1"]
    [("s1", sampleRecord)] [] "s1" "j1" sampleRecord
    (.requestFailure 500 "ERR" "boom")
    (by decide) (by decide) (by decide) (by decide) (by decide) rfl

theorem judgePairs_fst_key (entries : List (String × SolutionRecord))
    (jm : List String) (p : (String × SolutionRecord) × String)
    (hp : p ∈ judgePairs entries jm) :
    p.1 ∈ entries := by
  rcases List.mem_flatMap.mp hp with ⟨en, hen, hin⟩
  rcases List.mem_map.mp hin with ⟨j', _, hj⟩
  rw [← hj]
  exact hen

/-- C5: a solver model whose completion call fails (its file being
missing or invalid when its turn comes) is absent from the in-memory
solution set, contributes no judge pairs and no critiques as a solver,
and the rest of the run — file system and solution set — is exactly as
if that model had not been in the list. -/
theorem c5_failed_solver_isolated
    (fetch : String → String → Nat → HttpResponse)
    (solverPrompt template : String) (jm : List String)
    (fs0 : List (String × String)) (done0 : List String)
    (l1 l2 : List String) (m : String) (e : CallError)
    (hm1 : m ∉ l1) (hm2 : m ∉ l2)
    (hfile : validSolutionFile
      (lookupFs (solvePhase fetch solverPrompt fs0 l1).fs (slugify m)) = false)
    (hfail : callModel fetch m solverPrompt 12000 = .error e) :
    (m ∉ (solvePhase fetch solverPrompt fs0 (l1 ++ m :: l2)).solutions.map
      Prod.fst) ∧
    ((solvePhase fetch solverPrompt fs0 (l1 ++ m :: l2)).fs
      = (solvePhase fetch solverPrompt fs0 (l1 ++ l2)).fs) ∧
    ((solvePhase fetch solverPrompt fs0 (l1 ++ m :: l2)).solutions
      = (solvePhase fetch solverPrompt fs0 (l1 ++ l2)).solutions) ∧
    (∀ j, (m, j) ∉ (judgePhase fetch template jm
        (solvePhase fetch solverPrompt fs0 (l1 ++ m :: l2)).solutions
        (JudgeState.mk [] done0 [] [])).visited) ∧
    (∀ c ∈ (judgePhase fetch template jm
        (solvePhase fetch solverPrompt fs0 (l1 ++ m :: l2)).solutions
        (JudgeState.mk [] done0 [] [])).newCritiques,
      c.solverModel ≠ m) := by
  have hsplit1 : solvePhase fetch solverPrompt fs0 (l1 ++ m :: l2)
      = l2.foldl (solveStep fetch solverPrompt)
          (solveStep fetch solverPrompt
            (solvePhase fetch solverPrompt fs0 l1) m) := by
    unfold solvePhase
    rw [List.foldl_append, List.foldl_cons]
  have hsplit2 : solvePhase fetch solverPrompt fs0 (l1 ++ l2)
      = l2.foldl (solveStep fetch solverPrompt)
          (solvePhase fetch solverPrompt fs0 l1) := by
    unfold solvePhase
    rw [List.foldl_append]
  have hstep := solveStep_failed fetch solverPrompt
    (solvePhase fetch solverPrompt fs0 l1) m e hfile hfail
  have hY : solveStep fetch solverPrompt (solvePhase fetch solverPrompt fs0 l1) m
      = SolveState.mk (solvePhase fetch solverPrompt fs0 l1).fs
          (solvePhase fetch solverPrompt fs0 l1).solutions
          (solveStep fetch solverPrompt
            (solvePhase fetch solverPrompt fs0 l1) m).solveCalls := by
    rw [← hstep.1, ← hstep.2]
  have hfold := solveFold_calls fetch solverPrompt l2
    (solvePhase fetch solverPrompt fs0 l1).fs
    (solvePhase fetch solverPrompt fs0 l1).solutions
    (solveStep fetch solverPrompt
      (solvePhase fetch solverPrompt fs0 l1) m).solveCalls
    (solvePhase fetch solverPrompt fs0 l1).solveCalls
  have hBfs : (solvePhase fetch solverPrompt fs0 (l1 ++ m :: l2)).fs
      = (solvePhase fetch solverPrompt fs0 (l1 ++ l2)).fs := by
    rw [hsplit1, hsplit2, hY]
    exact hfold.1
  have hBsol : (solvePhase fetch solverPrompt fs0 (l1 ++ m :: l2)).solutions
      = (solvePhase fetch solverPrompt fs0 (l1 ++ l2)).solutions := by
    rw [hsplit1, hsplit2, hY]
    exact hfold.2
  have hkeys : m ∉ (solvePhase fetch solverPrompt fs0
      (l1 ++ m :: l2)).solutions.map Prod.fst := by
    intro hk
    rw [hsplit1] at hk
    rcases solveFold_keys fetch solverPrompt l2 _ m hk with h | h
    · rw [hstep.2] at h
      rcases solveFold_keys fetch solverPrompt l1
        (SolveState.mk fs0 [] []) m h with h' | h'
      · simp at h'
      · exact hm1 h'
    · exact hm2 h
  have hv : (judgePhase fetch template jm
      (solvePhase fetch solverPrompt fs0 (l1 ++ m :: l2)).solutions
      (JudgeState.mk [] done0 [] [])).visited
      = (solvePhase fetch solverPrompt fs0 (l1 ++ m :: l2)).solutions.flatMap
          (fun p => jm.map (fun j => (p.1, j))) := by
    rw [judgePhase_eq_foldl, foldl_visited, judgePairs_proj]
    rfl
  refine ⟨hkeys, hBfs, hBsol, ?_, ?_⟩
  · intro j hmem
    rw [hv] at hmem
    rcases List.mem_flatMap.mp hmem with ⟨en, hen, hin⟩
    rcases List.mem_map.mp hin with ⟨j', _, hj⟩
    have hfst : en.1 ∈ (solvePhase fetch solverPrompt fs0
        (l1 ++ m :: l2)).solutions.map Prod.fst :=
      List.mem_map.mpr ⟨en, hen, rfl⟩
    have hm' : en.1 = m := congrArg Prod.fst hj
    rw [hm'] at hfst
    exact hkeys hfst
  · intro c hc hcm
    rw [judgePhase_eq_foldl] at hc
    rcases foldl_solver_origin fetch template _ _ c hc with h | h
    · exact absurd h (List.not_mem_nil c)
    · rw [hcm] at h
      rcases List.mem_map.mp h with ⟨p, hp, hpm⟩
      have hfst : p.1.1 ∈ (solvePhase fetch solverPrompt fs0
          (l1 ++ m :: l2)).solutions.map Prod.fst :=
        List.mem_map.mpr ⟨p.1, judgePairs_fst_key _ jm p hp, rfl⟩
      rw [hpm] at hfst
      exact hkeys hfst

/-- C5 witness: the theorem applied at a concrete run where the model
"bad" fails between two succeeding models. -/
theorem c5_witness :
    ("bad" ∉ (solvePhase sampleFetchMixed "P" []
        (["good"] ++ "bad" :: ["other"])).solutions.map Prod.fst) ∧
    ((solvePhase sampleFetchMixed "P" []
        (["good"] ++ "bad" :: ["other"])).fs
      = (solvePhase sampleFetchMixed "P" [] (["good"] ++ ["other"])).fs) ∧
    (("bad", "j1") ∉ (judgePhase sampleFetchMixed "T" ["j1"]
        (solvePhase sampleFetchMixed "P" []
          (["good"] ++ "bad" :: ["other"])).solutions
        (JudgeState.mk [] [] [] [])).visited) ∧
    ((Critique.mk "good" "good" "j1" "NO" "").solverModel ≠ "bad") :=
  ⟨(c5_failed_solver_isolated sampleFetchMixed "P" "T" ["j1"] [] []
      ["good"] ["other"] "bad" (.requestFailure 500 "ERR" "boom")
      (by decide) (by decide) (by decide) rfl).1,
   (c5_failed_solver_isolated sampleFetchMixed "P" "T" ["j1"] [] []
      ["good"] ["other"] "bad" (.requestFailure 500 "ERR" "boom")
      (by decide) (by decide) (by decide) rfl).2.1,
   (c5_failed_solver_isolated sampleFetchMixed "P" "T" ["j1"] [] []
      ["good"] ["other"] "bad" (.requestFailure 500 "ERR" "boom")
      (by decide) (by decide) (by decide) rfl).2.2.2.1 "j1",
   (c5_failed_solver_isolated sampleFetchMixed "P" "T" ["j1"] [] []
      ["good"] ["other"] "bad" (.requestFailure 500 "ERR" "boom")
      (by decide) (by decide) (by decide) rfl).2.2.2.2
     (Critique.mk "good" "good" "j1" "NO" "") (by decide)⟩

theorem strLength_eq_zero (t : String) : t.length = 0 ↔ t = "" := by
  constructor
  · intro h
    cases t with
    | mk d =>
        cases d with
        | nil => rfl
        | cons a l => exact absurd h (by simp [String.length])
  · intro h
    rw [h]
    rfl

theorem validContent_iff (h : String) :
    validContent h = true ↔
      (jsTrim h ≠ "" ∧ strIncludes (jsToLower (jsTrim h)) "<html" = true) := by
  simp [validContent, strLength_eq_zero]

/-- C6: the solution membership test holds iff a file exists at the
model's slug-derived path, its trimmed content is non-empty, and the
trimmed content case-insensitively contains the marker `"<html"`; an
existing but empty-or-markerless file leads the solver step to call the
model again and overwrite the file with the new result. -/
theorem c6_solution_membership_test
    (fetch : String → String → Nat → HttpResponse) (solverPrompt : String)
    (st : SolveState) (m html newHtml : String) :
    ((validSolutionFile (lookupFs st.fs (slugify m)) = true) ↔
      (∃ h, lookupFs st.fs (slugify m) = some h ∧ jsTrim h ≠ "" ∧
        caseInsensitiveContains (jsTrim h) "<html" = true)) ∧
    (m ≠ "" → lookupFs st.fs (slugify m) = some html →
      validContent html = false →
      callModel fetch m solverPrompt 12000 = .ok newHtml →
      (solveStep fetch solverPrompt st m
        = SolveState.mk (writeFs st.fs (slugify m) newHtml)
            (recordSet st.solutions m
              (SolutionRecord.mk m (slugify m) newHtml))
            (st.solveCalls ++ [m])) ∧
      lookupFs (solveStep fetch solverPrompt st m).fs (slugify m)
        = some newHtml) := by
  have hlow : jsToLower "<html" = "<html" := by decide
  constructor
  · cases hl : lookupFs st.fs (slugify m) with
    | none => simp [validSolutionFile]
    | some h =>
        show validContent h = true ↔ _
        rw [validContent_iff]
        constructor
        · rintro ⟨h1, h2⟩
          refine ⟨h, rfl, h1, ?_⟩
          rw [caseInsensitiveContains, hlow]
          exact h2
        · rintro ⟨h', hh', h1, h2⟩
          have : h' = h := by
            injection hh' with hh
            exact hh.symm
          rw [this] at h1 h2
          rw [caseInsensitiveContains, hlow] at h2
          exact ⟨h1, h2⟩
  · intro hm hl hv hc
    have hstep : solveStep fetch solverPrompt st m
        = SolveState.mk (writeFs st.fs (slugify m) newHtml)
            (recordSet st.solutions m
              (SolutionRecord.mk m (slugify m) newHtml))
            (st.solveCalls ++ [m]) := by
      unfold solveStep solveGenerate
      simp [hm, hl, hv, hc]
    refine ⟨hstep, ?_⟩
    rw [hstep]
    exact lookup_writeFs st.fs (slugify m) newHtml

/-- C6 witness: the theorem applied at a concrete state whose existing
file for model "m1" is whitespace only, so the solver is re-invoked and
the file overwritten. -/
theorem c6_witness :
    ((validSolutionFile (lookupFs [("m1", " ")] (slugify "m1")) = true) ↔
      (∃ h, lookupFs [("m1", " ")] (slugify "m1") = some h ∧ jsTrim h ≠ "" ∧
        caseInsensitiveContains (jsTrim h) "<html" = true)) ∧
    ((solveStep sampleFetchOk "P" (SolveState.mk [("m1", " ")] [] []) "m1"
        = SolveState.mk (writeFs [("m1", " ")] (slugify "m1") "YES\n\nfine")
            (recordSet [] "m1" (SolutionRecord.mk "m1" (slugify "m1") "YES\n\nfine"))
            ([] ++ ["m1"])) ∧
      lookupFs (solveStep sampleFetchOk "P"
          (SolveState.mk [("m1", " ")] [] []) "m1").fs (slugify "m1")
        = some "YES\n\nfine") :=
  ⟨(c6_solution_membership_test sampleFetchOk "P"
      (SolveState.mk [("m1", " ")] [] []) "m1" " " "YES\n\nfine").1,
   (c6_solution_membership_test sampleFetchOk "P"
      (SolveState.mk [("m1", " ")] [] []) "m1" " " "YES\n\nfine").2
     (by decide) (by decide) (by decide) rfl⟩

end SchedulerMark
